import Mathlib

/-!
# Verification development for the XMLTV URL grabber

A shallow embedding of `internal/logic.go`: the range calculator
(`calculateProgrammeTimeRange`), the programme filter (`timeIsInRange`,
`programmeIsInRange`), the per-URL pipeline (`downloadXml`, `getContentForUrl`),
the merger (`mergeXml`), the serializer (`serializeXml`) and the orchestrator
(`getContent`).

Conventions of the embedding.

* A Go function returning `(T, error)` returns a pair `T × Option GoError`.
* A Go run-time panic is the `Except.error` case of `Except Panic _`.
* `time.Duration` is a signed 64-bit count of nanoseconds; products of durations are
  reduced with `wrapInt64`, as Go reduces them.
* `time.Time` is an instant on the time line (nanoseconds since the Unix epoch, an
  unbounded integer) together with the zone it is presented in.
* The network and the XML codec are parameters, collected in `Env`.
-/

set_option autoImplicit false

namespace TvGrab

/-! ## Durations and instants -/

/-- Reduction of an integer to the signed 64-bit range, the result of Go arithmetic
on `int64` values. -/
def wrapInt64 (x : Int) : Int := (x + 2 ^ 63) % 2 ^ 64 - 2 ^ 63

/-- Modelled from the spec: `time.Duration`, a count of nanoseconds. -/
abbrev Duration := Int

/-- Go constant `time.Second`, in nanoseconds. -/
def Second : Duration := 1000000000

/-- Go constant `time.Hour`, in nanoseconds. -/
def Hour : Duration := 3600 * Second

/-- Product of two durations as Go computes it on `int64`. -/
def Duration.mul (a b : Duration) : Duration := wrapInt64 (a * b)

def MAX_LENGTH_IN_DAYS : Int := 7
def MIN_LENGTH_IN_DAYS : Int := 1
def MIN_OFFSET_IN_DAYS : Int := 0
def ONE_DAY : Duration := Duration.mul Hour 24

/-- Modelled from the spec: `time.Time`. The instant is `unixNano`, the number of
nanoseconds since 1970-01-01T00:00:00Z; `zoneOffset` is the offset of the zone the
instant is presented in, in seconds east of UTC. -/
structure Time where
  unixNano : Int
  zoneOffset : Int
  deriving DecidableEq, Repr

/-- Seconds from the zero time of the library (0001-01-01T00:00:00Z) to the Unix
epoch: the constant `unixToInternal` of package `time`. -/
def unixToInternal : Int := (1969 * 365 + 1969 / 4 - 1969 / 100 + 1969 / 400) * 86400

/-- `t.After(u)`: the instant of `t` is later than that of `u`. -/
def Time.After (t u : Time) : Bool := decide (u.unixNano < t.unixNano)

/-- `t.Before(u)`: the instant of `t` is earlier than that of `u`. -/
def Time.Before (t u : Time) : Bool := decide (t.unixNano < u.unixNano)

/-- `t.Add(d)`: the instant moves by `d`, the zone stays. -/
def Time.Add (t : Time) (d : Duration) : Time :=
  { t with unixNano := t.unixNano + d }

/-- `t.Truncate(d)`: `t` rounded down to a multiple of `d` counted from the zero
time of the library; for `d <= 0` the time is returned unchanged. The remainder is
taken of the absolute time, not of the presentation in the zone of `t`. -/
def Time.Truncate (t : Time) (d : Duration) : Time :=
  if d ≤ 0 then t
  else
    let r := (t.unixNano + unixToInternal * Second) % d
    t.Add (-r)

/-- Days from 1970-01-01 to the given civil date (proleptic Gregorian calendar),
for a month in 1..12. -/
def daysFromCivil (year month day : Int) : Int :=
  let y := if month ≤ 2 then year - 1 else year
  let era := y / 400
  let yoe := y - era * 400
  let mp := if month > 2 then month - 3 else month + 9
  let doy := (153 * mp + 2) / 5 + day - 1
  let doe := yoe * 365 + yoe / 4 - yoe / 100 + doy
  era * 146097 + doe - 719468

/-- `time.Date(year, month, day, hour, min, sec, nsec, loc)` for a zone given by its
offset in seconds east of UTC and in-range fields. -/
def Date (year month day hour min sec nsec : Int) (zoneOffset : Int) : Time :=
  { unixNano :=
      ((daysFromCivil year month day * 86400 + hour * 3600 + min * 60 + sec) - zoneOffset)
        * Second + nsec
    zoneOffset := zoneOffset }

/-- Zone offset of `time.UTC`. -/
def UTC : Int := 0

/-- Nanoseconds of the wall clock reading of `t` in its own zone, counted from the
epoch of that zone. -/
def Time.localNano (t : Time) : Int := t.unixNano + t.zoneOffset * Second

/-- Calendar day of `t` read in its own zone, as a day number. -/
def Time.localDay (t : Time) : Int := t.localNano / (86400 * Second)

/-- Time of day of `t` read in its own zone, in nanoseconds since local midnight. -/
def Time.localTimeOfDay (t : Time) : Int := t.localNano % (86400 * Second)

/-- Calendar day of `t` read in UTC, as a day number. -/
def Time.utcDay (t : Time) : Int := t.unixNano / (86400 * Second)

/-- Time of day of `t` read in UTC, in nanoseconds since midnight UTC. -/
def Time.utcTimeOfDay (t : Time) : Int := t.unixNano % (86400 * Second)

/-! ## Range calculator -/

/-- Source: `calculateProgrammeTimeRange` in `internal/logic.go`. -/
def calculateProgrammeTimeRange (now : Time) (offsetInDays : Int) (lengthInDays : Int) :
    Time × Time :=
  let offsetDuration : Duration := Duration.mul (max offsetInDays MIN_OFFSET_IN_DAYS) ONE_DAY
  let lengthDuration : Duration :=
    if lengthInDays > 0 then Duration.mul (max lengthInDays MIN_LENGTH_IN_DAYS) ONE_DAY
    else Duration.mul MAX_LENGTH_IN_DAYS ONE_DAY
  let earliest := (now.Truncate ONE_DAY).Add offsetDuration
  let latest := earliest.Add lengthDuration
  (earliest, latest)

/-- The reference instant of the tests, 2025-10-05 12:00:00 UTC. -/
def TEST_NOW : Time := Date 2025 10 5 12 0 0 0 UTC

/-! ## Data model -/

/-- A run-time panic of the Go program. -/
inductive Panic where
  | nilPointerDereference
  deriving DecidableEq, Repr

/-- A Go `error` value, identified by its message. -/
structure GoError where
  msg : String
  deriving DecidableEq, Repr

/-- Modelled from the spec: `xmltv.Channel`, a pass-through record that the program
only concatenates. -/
structure Channel where
  ID : String
  DisplayNames : List String
  deriving DecidableEq, Repr

/-- Modelled from the spec: `xmltv.Programme`. `Start` is a value and always present;
`Stop` is a pointer in the source and `none` stands for the nil pointer of an
open-ended programme. The descriptive fields are passed through. -/
structure Programme where
  Channel : String
  Start : Time
  Stop : Option Time
  Titles : List String
  deriving DecidableEq, Repr

/-- Modelled from the spec: `xmltv.EPG`, the guide document: the generation date
(a pointer, `none` when absent), the generator name as the representative of the
remaining attributes, the channels and the programmes. -/
structure EPG where
  Date : Option Time
  GeneratorInfoName : Option String
  Channels : List Channel
  Programmes : List Programme
  deriving DecidableEq, Repr

/-- The zero value of `xmltv.EPG` (`var epg xmltv.EPG`). -/
def EPG.zero : EPG :=
  { Date := none, GeneratorInfoName := none, Channels := [], Programmes := [] }

/-! ## Programme filter -/

/-- Source: `timeIsInRange` in `internal/logic.go`. The first statement reads the
field `Time` through the pointer `xmltvTime`, which panics on the nil pointer. -/
def timeIsInRange (xmltvTime : Option Time) (start : Time) (endTime : Time) :
    Except Panic Bool :=
  match xmltvTime with
  | none => .error .nilPointerDereference
  | some time => .ok (time.After start && time.Before endTime)

/-- Source: `programmeIsInRange` in `internal/logic.go`. The three locals are
computed in the order of the source; `&&` evaluates `programme.Stop.After(end)` only
when its left operand is true. -/
def programmeIsInRange (programme : Programme) (start : Time) (endTime : Time) :
    Except Panic Bool := do
  let startIsInRange ← timeIsInRange (some programme.Start) start endTime
  let stopIsInRange ← timeIsInRange programme.Stop start endTime
  let fullOverlap ←
    if programme.Start.Before start then
      match programme.Stop with
      | none => Except.error Panic.nilPointerDereference
      | some stop => Except.ok (stop.After endTime)
    else Except.ok false
  return startIsInRange || stopIsInRange || fullOverlap

/-! ## Merger -/

/-- The `for` loop of `mergeXml`: each document appends its channels and its
programmes to the result. -/
def mergeXml.loop : List EPG → EPG → EPG
  | [], result => result
  | doc :: rest, result =>
    mergeXml.loop rest
      { result with
        Channels := result.Channels ++ doc.Channels
        Programmes := result.Programmes ++ doc.Programmes }

/-- Source: `mergeXml` in `internal/logic.go`. -/
def mergeXml (xmlDocuments : List EPG) (now : Time) : EPG × Option GoError :=
  let result : EPG :=
    { Date := some now, GeneratorInfoName := none, Channels := [], Programmes := [] }
  (mergeXml.loop xmlDocuments result, none)

/-! ## Transport, parsing and serialization -/

/-- Bytes of a response body. -/
abbrev Bytes := List Nat

/-- An HTTP response as `downloadXml` reads it: the status code and the outcome of
`io.ReadAll(resp.Body)`. -/
structure Response where
  StatusCode : Nat
  Body : Except GoError Bytes

/-- The library calls of the program, as parameters: `http.Get`, the gzip reader
(`gzip.NewReader` followed by `io.ReadAll`), `xml.Unmarshal` into a zero document
(the document as the call leaves it, and the error) and `xml.MarshalIndent`. -/
structure Env where
  httpGet : String → Except GoError Response
  gzipReadAll : Bytes → Except GoError (Bytes × Option GoError)
  xmlUnmarshal : Bytes → EPG × Option GoError
  xmlMarshalIndent : EPG → Except GoError String

/-- Go constant `http.StatusOK`. -/
def StatusOK : Nat := 200

/-- Source: `unzipGzipData` in `internal/logic.go`. -/
def unzipGzipData (env : Env) (data : Bytes) : Bytes × Option GoError :=
  match env.gzipReadAll data with
  | .error err => ([], some err)
  | .ok read => read

/-- Whether the body starts with the gzip magic number:
`len(body) >= 2 && body[0] == 0x1f && body[1] == 0x8b`. -/
def hasGzipMagic : Bytes → Bool
  | b0 :: b1 :: _ => b0 == 0x1f && b1 == 0x8b
  | _ => false

/-- Source: `downloadXml` in `internal/logic.go`. -/
def downloadXml (env : Env) (url : String) : Bytes × Option GoError :=
  match env.httpGet url with
  | .error err => ([], some err)
  | .ok resp =>
    if resp.StatusCode ≠ StatusOK then
      ([], some ⟨"HTTP request failed with status code " ++ toString resp.StatusCode⟩)
    else
      match resp.Body with
      | .error err => ([], some err)
      | .ok body =>
        if hasGzipMagic body then
          match unzipGzipData env body with
          | (_, some err) => ([], some err)
          | (content, none) => (content, none)
        else (body, none)

/-- The filter loop of `getContentForUrl`: a programme in range is appended to
`filtered`, any other is skipped; a panic of the test ends the loop. -/
def getContentForUrl.loop (earliest latest : Time) :
    List Programme → List Programme → Except Panic (List Programme)
  | [], filtered => .ok filtered
  | p :: rest, filtered =>
    match programmeIsInRange p earliest latest with
    | .error panic => .error panic
    | .ok true => getContentForUrl.loop earliest latest rest (filtered ++ [p])
    | .ok false => getContentForUrl.loop earliest latest rest filtered

/-- Source: `getContentForUrl` in `internal/logic.go`. -/
def getContentForUrl (env : Env) (url : String) (lengthInDays : Int) (offsetInDays : Int)
    (now : Time) : Except Panic (EPG × Option GoError) :=
  match downloadXml env url with
  | (_, some err) => .ok (EPG.zero, some err)
  | (body, none) =>
    match env.xmlUnmarshal body with
    | (epg, some err) => .ok (epg, some err)
    | (epg, none) =>
      let (earliest, latest) := calculateProgrammeTimeRange now offsetInDays lengthInDays
      match getContentForUrl.loop earliest latest epg.Programmes [] with
      | .error panic => .error panic
      | .ok filtered => .ok ({ epg with Programmes := filtered }, none)

/-- Source: `serializeXml` in `internal/logic.go`. -/
def serializeXml (env : Env) (epg : EPG) : String × Option GoError :=
  let header := "<?xml version=\"1.0\" encoding=\"UTF-8\"?>" ++ "\n"
  let header := header ++ "<!DOCTYPE tv SYSTEM \"xmltv.dtd\">" ++ "\n"
  match env.xmlMarshalIndent epg with
  | .error err => ("", some err)
  | .ok out => (header ++ out, none)

/-! ## Orchestrator -/

/-- Source: `Request` in `internal/logic.go`. -/
structure Request where
  URLs : List String
  LengthInDays : Int
  OffsetInDays : Int
  Quiet : Bool
  GetNowFunc : Unit → Time

/-- How the `for` loop of `getContent` ends: with all documents, with the error it
returns, or with a panic. -/
inductive LoopExit where
  | done (xmlDocuments : List EPG)
  | failed (err : GoError)
  | panicked (panic : Panic)

/-- The `for` loop of `getContent`. `visited` is the list of URLs handed to
`getContentForUrl` so far, in order. -/
def getContent.loop (env : Env) (r : Request) :
    List String → List EPG → List String → LoopExit × List String
  | [], xmlDocuments, visited => (.done xmlDocuments, visited)
  | url :: rest, xmlDocuments, visited =>
    match getContentForUrl env url r.LengthInDays r.OffsetInDays (r.GetNowFunc ()) with
    | .error panic => (.panicked panic, visited ++ [url])
    | .ok (_, some err) => (.failed err, visited ++ [url])
    | .ok (xmlDocument, none) =>
      getContent.loop env r rest (xmlDocuments ++ [xmlDocument]) (visited ++ [url])

/-- Source: `getContent` in `internal/logic.go`, together with the list of URLs that
were handed to `getContentForUrl`. -/
def getContentTraced (env : Env) (r : Request) :
    Except Panic (String × Option GoError) × List String :=
  match getContent.loop env r r.URLs [] [] with
  | (.panicked panic, visited) => (.error panic, visited)
  | (.failed err, visited) => (.ok ("", some err), visited)
  | (.done xmlDocuments, visited) =>
    match mergeXml xmlDocuments (r.GetNowFunc ()) with
    | (_, some err) => (.ok ("", some err), visited)
    | (mergedDocument, none) => (.ok (serializeXml env mergedDocument), visited)

/-- Source: `getContent` in `internal/logic.go`. -/
def getContent (env : Env) (r : Request) : Except Panic (String × Option GoError) :=
  (getContentTraced env r).1

/-- The URLs that `getContent` processes, in order. -/
def getContentVisited (env : Env) (r : Request) : List String :=
  (getContentTraced env r).2

/-! ## Specification-side definitions and sample inputs -/

/-- A programme of the evening of 2025-10-04 that ends on 2025-10-07, around the
window of 2025-10-05 and 2025-10-06. -/
def straddlingProgramme : Programme :=
  { Channel := "533", Start := Date 2025 10 4 22 0 0 0 UTC,
    Stop := some (Date 2025 10 7 3 0 0 0 UTC), Titles := ["Marathon"] }

/-- An open-ended programme of the afternoon of 2025-10-05: no stop attribute. -/
def openEndedProgramme : Programme :=
  { Channel := "533", Start := Date 2025 10 5 13 0 0 0 UTC, Stop := none,
    Titles := ["Live"] }

/-- A programme that fills 2025-10-05 exactly, from midnight to midnight. -/
def wholeDayProgramme : Programme :=
  { Channel := "533", Start := Date 2025 10 5 0 0 0 0 UTC,
    Stop := some (Date 2025 10 6 0 0 0 0 UTC), Titles := ["Day"] }

/-- A record whose stop attribute lies before its start attribute. -/
def reversedProgramme : Programme :=
  { Channel := "533", Start := Date 2025 10 5 13 0 0 0 UTC,
    Stop := some (Date 2025 10 5 0 0 0 0 UTC), Titles := ["Reversed"] }

/-- A programme of the evening of 2025-10-04 that stops at midnight. -/
def eveningProgramme : Programme :=
  { Channel := "533", Start := Date 2025 10 4 22 0 0 0 UTC,
    Stop := some (Date 2025 10 5 0 0 0 0 UTC), Titles := ["Late"] }

/-- The range as the specification states it (section 4.3 and claim C2), with day
counts as unbounded integers: `earliest` is `now` rounded down to a multiple of 24
hours (counted from the epoch, the zone kept) plus `max(offsetDays, 0)` days, `latest`
is `earliest` plus `lengthDays` days for a positive `lengthDays` and plus 7 days
otherwise. -/
def computeRange (now : Time) (offsetDays lengthDays : Int) : Time × Time :=
  let effectiveOffset := max offsetDays 0
  let effectiveLength := if lengthDays > 0 then lengthDays else 7
  let truncated : Time :=
    { unixNano := now.unixNano - now.unixNano % 86400000000000, zoneOffset := now.zoneOffset }
  let earliest : Time :=
    { truncated with unixNano := truncated.unixNano + effectiveOffset * 86400000000000 }
  (earliest, { earliest with unixNano := earliest.unixNano + effectiveLength * 86400000000000 })

/-- An instant of the night of 2025-10-05 in a zone two hours east of UTC:
2025-10-05T01:00:00+02:00, which is 2025-10-04T23:00:00Z. -/
def nightInBerlin : Time := Date 2025 10 5 1 0 0 0 7200

/-- A programme of the afternoon of 2025-10-05. -/
def afternoonProgramme : Programme :=
  { Channel := "533", Start := Date 2025 10 5 13 0 0 0 UTC,
    Stop := some (Date 2025 10 5 14 0 0 0 UTC), Titles := ["News"] }

/-- A programme that starts in the afternoon of 2025-10-05 and stops at midnight two
days later, 2025-10-07T00:00:00Z. -/
def lateEndingProgramme : Programme :=
  { Channel := "533", Start := Date 2025 10 5 13 0 0 0 UTC,
    Stop := some (Date 2025 10 7 0 0 0 0 UTC), Titles := ["Festival"] }

/-- The decision of the filter on one programme, false when the test panics. -/
def keptBy (earliest latest : Time) (p : Programme) : Bool :=
  match programmeIsInRange p earliest latest with
  | .ok keep => keep
  | .error _ => false

/-- A server that answers every request with status 200 and a plain body, and a
decoder that reads from it a guide with one channel and two programmes, the second
of them open-ended. -/
def openEndedEnv : Env :=
  { httpGet := fun _ => .ok { StatusCode := 200, Body := .ok [60, 116, 118, 62] }
    gzipReadAll := fun data => .ok (data, none)
    xmlUnmarshal := fun _ =>
      ({ Date := none, GeneratorInfoName := some "guide",
         Channels := [{ ID := "533", DisplayNames := ["Channel"] }],
         Programmes := [afternoonProgramme, openEndedProgramme] }, none)
    xmlMarshalIndent := fun _ => .ok "<tv></tv>" }

/-- The per-URL step of `getContent`: the call in the body of its loop. -/
def getContent.step (env : Env) (r : Request) (url : String) :
    Except Panic (EPG × Option GoError) :=
  getContentForUrl env url r.LengthInDays r.OffsetInDays (r.GetNowFunc ())

/-- Three sources of which the second answers with status 500. -/
def failingEnv : Env :=
  { httpGet := fun url =>
      if url = "http://localhost/b.xml" then .ok { StatusCode := 500, Body := .ok [] }
      else .ok { StatusCode := 200, Body := .ok [60, 116, 118, 62] }
    gzipReadAll := fun data => .ok (data, none)
    xmlUnmarshal := fun _ =>
      ({ Date := none, GeneratorInfoName := some "guide",
         Channels := [{ ID := "533", DisplayNames := ["Channel"] }],
         Programmes := [afternoonProgramme] }, none)
    xmlMarshalIndent := fun _ => .ok "<tv></tv>" }

/-- A request for the three sources with `now` fixed to 2025-10-05T12:00:00Z. -/
def failingRequest : Request :=
  { URLs := ["http://localhost/a.xml", "http://localhost/b.xml", "http://localhost/c.xml"]
    LengthInDays := 0, OffsetInDays := 0, Quiet := false, GetNowFunc := fun _ => TEST_NOW }

/-! ## Facts about the programme filter -/

/-- With a stop instant present, `programmeIsInRange` returns the disjunction of its
three tests. -/
theorem programmeIsInRange_of_stop (p : Programme) (earliest latest stop : Time)
    (hstop : p.Stop = some stop) :
    programmeIsInRange p earliest latest
      = .ok ((p.Start.After earliest && p.Start.Before latest)
          || (stop.After earliest && stop.Before latest)
          || (p.Start.Before earliest && stop.After latest)) := by
  unfold programmeIsInRange timeIsInRange
  rw [hstop]
  by_cases h : p.Start.Before earliest = true
  · simp [h, bind, Except.bind, pure, Except.pure]
  · simp [h, bind, Except.bind, pure, Except.pure]

/-- Without a stop instant, `programmeIsInRange` panics. -/
theorem programmeIsInRange_of_nil_stop (p : Programme) (earliest latest : Time)
    (hstop : p.Stop = none) :
    programmeIsInRange p earliest latest = .error .nilPointerDereference := by
  unfold programmeIsInRange timeIsInRange
  rw [hstop]
  simp [bind, Except.bind]

/-- With a stop instant present, `programmeIsInRange` decides the disjunction of the
three strict comparisons of instants. -/
theorem programmeIsInRange_decide (p : Programme) (earliest latest stop : Time)
    (hstop : p.Stop = some stop) :
    programmeIsInRange p earliest latest
      = .ok (decide
          ((earliest.unixNano < p.Start.unixNano ∧ p.Start.unixNano < latest.unixNano)
            ∨ (earliest.unixNano < stop.unixNano ∧ stop.unixNano < latest.unixNano)
            ∨ (p.Start.unixNano < earliest.unixNano ∧ latest.unixNano < stop.unixNano))) := by
  rw [programmeIsInRange_of_stop p earliest latest stop hstop]
  congr 1
  simp only [Time.After, Time.Before, Bool.decide_and, Bool.decide_or, Bool.or_assoc]

/-- C1: for a programme with a stop instant, `programmeIsInRange` is true exactly
when the start lies strictly inside the window, or the stop lies strictly inside the
window, or the start is strictly before `earliest` and the stop strictly after
`latest`; in particular a programme straddling the whole window is kept. -/
theorem programmeIsInRange_iff (p : Programme) (earliest latest stop : Time)
    (hstop : p.Stop = some stop) :
    (programmeIsInRange p earliest latest = .ok true
        ↔ ((earliest.unixNano < p.Start.unixNano ∧ p.Start.unixNano < latest.unixNano)
            ∨ (earliest.unixNano < stop.unixNano ∧ stop.unixNano < latest.unixNano)
            ∨ (p.Start.unixNano < earliest.unixNano ∧ latest.unixNano < stop.unixNano)))
      ∧ (programmeIsInRange p earliest latest = .ok false
        ↔ ¬ ((earliest.unixNano < p.Start.unixNano ∧ p.Start.unixNano < latest.unixNano)
            ∨ (earliest.unixNano < stop.unixNano ∧ stop.unixNano < latest.unixNano)
            ∨ (p.Start.unixNano < earliest.unixNano ∧ latest.unixNano < stop.unixNano)))
      ∧ (p.Start.unixNano < earliest.unixNano → latest.unixNano < stop.unixNano →
          programmeIsInRange p earliest latest = .ok true) := by
  rw [programmeIsInRange_decide p earliest latest stop hstop]
  refine ⟨?_, ?_, ?_⟩
  · constructor
    · intro h
      exact of_decide_eq_true (Except.ok.inj h)
    · intro h
      rw [decide_eq_true h]
  · constructor
    · intro h
      exact of_decide_eq_false (Except.ok.inj h)
    · intro h
      rw [decide_eq_false h]
  · intro h1 h2
    rw [decide_eq_true (Or.inr (Or.inr ⟨h1, h2⟩))]

/-- Witness of C1: the straddling programme is kept in the two-day window that
starts on 2025-10-05. -/
theorem programmeIsInRange_iff_witness :
    programmeIsInRange straddlingProgramme (Date 2025 10 5 0 0 0 0 UTC)
        (Date 2025 10 7 0 0 0 0 UTC) = .ok true :=
  (programmeIsInRange_iff straddlingProgramme (Date 2025 10 5 0 0 0 0 UTC)
      (Date 2025 10 7 0 0 0 0 UTC) (Date 2025 10 7 3 0 0 0 UTC) rfl).2.2
    (by decide) (by decide)

/-- With a stop instant present, a window `earliest < latest` and `start < stop`,
`programmeIsInRange` is true exactly for the programmes that share time with the
window, except those that start exactly at `earliest` and stop at or after `latest`
and those that start before `earliest` and stop exactly at `latest`. -/
theorem programmeIsInRange_overlap (p : Programme) (earliest latest stop : Time)
    (hstop : p.Stop = some stop) (hwin : earliest.unixNano < latest.unixNano)
    (hord : p.Start.unixNano < stop.unixNano) :
    programmeIsInRange p earliest latest
      = .ok (decide
          ((p.Start.unixNano < latest.unixNano ∧ earliest.unixNano < stop.unixNano)
            ∧ ¬ (p.Start.unixNano = earliest.unixNano ∧ latest.unixNano ≤ stop.unixNano)
            ∧ ¬ (p.Start.unixNano < earliest.unixNano ∧ stop.unixNano = latest.unixNano))) := by
  rw [programmeIsInRange_decide p earliest latest stop hstop]
  congr 1
  rw [decide_eq_decide]
  omega

/-- C5: at an open-ended programme (stop absent) whose start lies inside the window of
2025-10-05, `programmeIsInRange` does not return: `timeIsInRange` reads through the
nil stop pointer and the call panics. -/
theorem programmeIsInRange_openEnded_panics :
    openEndedProgramme.Stop = none
      ∧ (Date 2025 10 5 0 0 0 0 UTC).unixNano < openEndedProgramme.Start.unixNano
      ∧ openEndedProgramme.Start.unixNano < (Date 2025 10 6 0 0 0 0 UTC).unixNano
      ∧ timeIsInRange openEndedProgramme.Stop (Date 2025 10 5 0 0 0 0 UTC)
          (Date 2025 10 6 0 0 0 0 UTC) = .error .nilPointerDereference
      ∧ programmeIsInRange openEndedProgramme (Date 2025 10 5 0 0 0 0 UTC)
          (Date 2025 10 6 0 0 0 0 UTC) = .error .nilPointerDereference :=
  ⟨rfl, by decide, by decide, rfl, rfl⟩

/-- C6: with `now` = 2025-10-05T12:00:00Z, offset 0 and length 1 the window is
2025-10-05T00:00:00Z to 2025-10-06T00:00:00Z; the programme that runs from the first
instant to the second has `start < stop`, `start < latest` and `stop > earliest`, so it
is not outside the range, and the filter removes it. -/
theorem wholeDayProgramme_removed :
    calculateProgrammeTimeRange TEST_NOW 0 1
        = (Date 2025 10 5 0 0 0 0 UTC, Date 2025 10 6 0 0 0 0 UTC)
      ∧ wholeDayProgramme.Stop = some (Date 2025 10 6 0 0 0 0 UTC)
      ∧ wholeDayProgramme.Start.unixNano < (Date 2025 10 6 0 0 0 0 UTC).unixNano
      ∧ (Date 2025 10 5 0 0 0 0 UTC).unixNano < (Date 2025 10 6 0 0 0 0 UTC).unixNano
      ∧ programmeIsInRange wholeDayProgramme (calculateProgrammeTimeRange TEST_NOW 0 1).1
          (calculateProgrammeTimeRange TEST_NOW 0 1).2 = .ok false
      ∧ getContentForUrl.loop (calculateProgrammeTimeRange TEST_NOW 0 1).1
          (calculateProgrammeTimeRange TEST_NOW 0 1).2 [wholeDayProgramme] [] = .ok [] :=
  ⟨by decide, rfl, by decide, by decide, rfl, rfl⟩

/-- C8, as stated, fails: in the window 2025-10-05T00:00:00Z to 2025-10-06T00:00:00Z
the record that starts at 13:00 and whose stop equals `earliest` is in range. -/
theorem programmeIsInRange_boundary_counterexample :
    (Date 2025 10 5 0 0 0 0 UTC).unixNano < (Date 2025 10 6 0 0 0 0 UTC).unixNano
      ∧ reversedProgramme.Stop = some (Date 2025 10 5 0 0 0 0 UTC)
      ∧ programmeIsInRange reversedProgramme (Date 2025 10 5 0 0 0 0 UTC)
          (Date 2025 10 6 0 0 0 0 UTC) = .ok true :=
  ⟨by decide, rfl, rfl⟩

/-- C8, amended: in a window `earliest < latest`, a programme with a stop instant and
`start <= stop` whose stop equals `earliest`, or whose start equals `latest`, is not
in range. -/
theorem programmeIsInRange_boundary (p : Programme) (earliest latest stop : Time)
    (hwin : earliest.unixNano < latest.unixNano) (hstop : p.Stop = some stop)
    (hord : p.Start.unixNano ≤ stop.unixNano)
    (htouch : stop.unixNano = earliest.unixNano ∨ p.Start.unixNano = latest.unixNano) :
    programmeIsInRange p earliest latest = .ok false := by
  rw [programmeIsInRange_decide p earliest latest stop hstop]
  congr 1
  rw [decide_eq_false_iff_not]
  omega

/-- Witness of C8: the programme that stops exactly at the start of the window of
2025-10-05 is not in range. -/
theorem programmeIsInRange_boundary_witness :
    programmeIsInRange eveningProgramme (Date 2025 10 5 0 0 0 0 UTC)
        (Date 2025 10 6 0 0 0 0 UTC) = .ok false :=
  programmeIsInRange_boundary eveningProgramme (Date 2025 10 5 0 0 0 0 UTC)
    (Date 2025 10 6 0 0 0 0 UTC) (Date 2025 10 5 0 0 0 0 UTC) (by decide) rfl (by decide)
    (Or.inl rfl)

/-! ## Facts about the range calculator -/

/-- The day is 86400 seconds of a billion nanoseconds. -/
theorem ONE_DAY_eq : ONE_DAY = 86400000000000 := by decide

/-- The zero time of the library lies a whole number of days before the Unix epoch. -/
theorem unixToInternal_nanos : unixToInternal * Second = 719162 * 86400000000000 := by
  decide

/-- A count of up to 106751 days, as a duration, is not changed by the reduction to
64 bits. -/
theorem Duration_mul_days (k : Int) (h0 : 0 ≤ k) (hk : k ≤ 106751) :
    Duration.mul k ONE_DAY = k * 86400000000000 := by
  have h63 : (2 : Int) ^ 63 = 9223372036854775808 := by norm_num
  have h64 : (2 : Int) ^ 64 = 18446744073709551616 := by norm_num
  unfold Duration.mul wrapInt64
  rw [ONE_DAY_eq, h63, h64]
  change ((k * 86400000000000 + 9223372036854775808) % 18446744073709551616
    - 9223372036854775808 : Int) = k * 86400000000000
  omega

/-- Truncation to the day rounds the instant down to a multiple of 24 hours since the
Unix epoch and keeps the zone. -/
theorem Time_Truncate_day (t : Time) :
    t.Truncate ONE_DAY
      = { unixNano := t.unixNano - t.unixNano % 86400000000000, zoneOffset := t.zoneOffset } := by
  unfold Time.Truncate Time.Add
  rw [ONE_DAY_eq, unixToInternal_nanos]
  simp only [show ¬ ((86400000000000 : Int) ≤ 0) by decide, if_false]
  congr 1
  omega

/-- C2, as stated, fails: for a length of 106752 days the duration
`lengthInDays * ONE_DAY` exceeds the 64-bit range and wraps to a negative value, so
`latest` is not `earliest` plus 106752 days; it lies before `earliest`. -/
theorem calculateProgrammeTimeRange_overflow :
    calculateProgrammeTimeRange TEST_NOW 0 106752 ≠ computeRange TEST_NOW 0 106752
      ∧ (calculateProgrammeTimeRange TEST_NOW 0 106752).1 = Date 2025 10 5 0 0 0 0 UTC
      ∧ (calculateProgrammeTimeRange TEST_NOW 0 106752).2.unixNano
          < (calculateProgrammeTimeRange TEST_NOW 0 106752).1.unixNano := by
  decide

/-- C2, amended: for offsets and lengths of at most 106751 days,
`calculateProgrammeTimeRange` returns the range of the specification: `earliest` is
`now` truncated to the day plus `max(offsetDays, 0)` days and `latest` is `earliest`
plus `lengthDays` days when `lengthDays > 0` (no upper clamp) and plus 7 days
otherwise. -/
theorem calculateProgrammeTimeRange_eq (now : Time) (offsetDays lengthDays : Int)
    (hoff : offsetDays ≤ 106751) (hlen : lengthDays ≤ 106751) :
    calculateProgrammeTimeRange now offsetDays lengthDays
      = computeRange now offsetDays lengthDays := by
  unfold calculateProgrammeTimeRange computeRange
  simp only [MIN_OFFSET_IN_DAYS, MIN_LENGTH_IN_DAYS, MAX_LENGTH_IN_DAYS]
  rw [Duration_mul_days (max offsetDays 0) (le_max_right _ _) (max_le hoff (by decide))]
  by_cases hpos : lengthDays > 0
  · rw [if_pos hpos, if_pos hpos,
      Duration_mul_days (max lengthDays 1) (by omega) (max_le hlen (by decide))]
    have hmax : max lengthDays 1 = lengthDays := max_eq_left (by omega)
    rw [hmax, Time_Truncate_day]
    rfl
  · rw [if_neg hpos, if_neg hpos, Duration_mul_days 7 (by decide) (by decide),
      Time_Truncate_day]
    rfl

/-- Witnesses of C2: with `now` = 2025-10-05T12:00:00Z, offset 0 and length 0 give
2025-10-05T00:00:00Z to 2025-10-12T00:00:00Z; offset 1 and length 1 give
2025-10-06T00:00:00Z to 2025-10-07T00:00:00Z. -/
theorem calculateProgrammeTimeRange_eq_witness :
    calculateProgrammeTimeRange TEST_NOW 0 0
        = (Date 2025 10 5 0 0 0 0 UTC, Date 2025 10 12 0 0 0 0 UTC)
      ∧ calculateProgrammeTimeRange TEST_NOW 1 1
        = (Date 2025 10 6 0 0 0 0 UTC, Date 2025 10 7 0 0 0 0 UTC) :=
  ⟨(calculateProgrammeTimeRange_eq TEST_NOW 0 0 (by decide) (by decide)).trans (by decide),
   (calculateProgrammeTimeRange_eq TEST_NOW 1 1 (by decide) (by decide)).trans (by decide)⟩

/-- C7, as stated, fails: for `now` = 2025-10-05T01:00:00+02:00 the earliest instant is
2025-10-04T00:00:00Z, which reads 2025-10-04T02:00:00 in the zone of `now`: neither
the local date of `now` nor local midnight. -/
theorem calculateProgrammeTimeRange_zone_counterexample :
    (calculateProgrammeTimeRange nightInBerlin 0 0).1
        = { unixNano := (Date 2025 10 4 0 0 0 0 UTC).unixNano, zoneOffset := 7200 }
      ∧ (calculateProgrammeTimeRange nightInBerlin 0 0).1.localDay ≠ nightInBerlin.localDay
      ∧ (calculateProgrammeTimeRange nightInBerlin 0 0).1.localTimeOfDay = 2 * Hour := by
  decide

/-- C7, amended: with `offsetDays <= 0` the earliest instant keeps the zone of `now` and
is the start of the calendar day of `now` read in UTC (same UTC day, UTC time of day
zero); read in the zone of `now` its time of day is the zone offset modulo 24 hours,
so it is the start of the local day of `now` when the offset of the zone is zero. -/
theorem calculateProgrammeTimeRange_earliest (now : Time) (offsetDays lengthDays : Int)
    (hoff : offsetDays ≤ 0) :
    (calculateProgrammeTimeRange now offsetDays lengthDays).1.zoneOffset = now.zoneOffset
      ∧ (calculateProgrammeTimeRange now offsetDays lengthDays).1.utcDay = now.utcDay
      ∧ (calculateProgrammeTimeRange now offsetDays lengthDays).1.utcTimeOfDay = 0
      ∧ (calculateProgrammeTimeRange now offsetDays lengthDays).1.localTimeOfDay
          = (now.zoneOffset * Second) % (86400 * Second)
      ∧ (now.zoneOffset = 0 →
          (calculateProgrammeTimeRange now offsetDays lengthDays).1.localDay = now.localDay
            ∧ (calculateProgrammeTimeRange now offsetDays lengthDays).1.localTimeOfDay = 0) := by
  have hmax : max offsetDays 0 = 0 := max_eq_right hoff
  have he : (calculateProgrammeTimeRange now offsetDays lengthDays).1
      = { unixNano := now.unixNano - now.unixNano % 86400000000000,
          zoneOffset := now.zoneOffset } := by
    unfold calculateProgrammeTimeRange
    simp only [MIN_OFFSET_IN_DAYS]
    rw [hmax, Duration_mul_days 0 (le_refl 0) (by decide), Time_Truncate_day]
    simp [Time.Add]
  rw [he]
  simp only [Time.utcDay, Time.utcTimeOfDay, Time.localDay, Time.localTimeOfDay,
    Time.localNano, Second]
  refine ⟨trivial, ?_, ?_, ?_, ?_⟩
  · omega
  · omega
  · omega
  · intro hz
    rw [hz]
    omega

/-- Witness of C7 for UTC: `now` = 2025-10-05T12:00:00Z gives the earliest instant
2025-10-05T00:00:00Z, the start of the local day of `now`. -/
theorem calculateProgrammeTimeRange_earliest_witness :
    (calculateProgrammeTimeRange TEST_NOW 0 0).1 = Date 2025 10 5 0 0 0 0 UTC
      ∧ (calculateProgrammeTimeRange TEST_NOW 0 0).1.localDay = TEST_NOW.localDay
      ∧ (calculateProgrammeTimeRange TEST_NOW 0 0).1.localTimeOfDay = 0 :=
  ⟨by decide,
   (calculateProgrammeTimeRange_earliest TEST_NOW 0 0 (by decide)).2.2.2.2 rfl⟩

/-- The earliest instant does not depend on the requested length. -/
theorem calculateProgrammeTimeRange_fst (now : Time) (offsetDays l1 l2 : Int) :
    (calculateProgrammeTimeRange now offsetDays l1).1
      = (calculateProgrammeTimeRange now offsetDays l2).1 := rfl

/-- For a length between 1 and 106751 days the latest instant lies that many days
after the earliest one. -/
theorem calculateProgrammeTimeRange_snd (now : Time) (offsetDays lengthDays : Int)
    (hpos : 0 < lengthDays) (hlen : lengthDays ≤ 106751) :
    (calculateProgrammeTimeRange now offsetDays lengthDays).2.unixNano
      = (calculateProgrammeTimeRange now offsetDays lengthDays).1.unixNano
          + lengthDays * 86400000000000 := by
  have hmax : max lengthDays 1 = lengthDays := max_eq_left (by omega)
  unfold calculateProgrammeTimeRange
  simp only [MIN_LENGTH_IN_DAYS, Time.Add]
  rw [if_pos hpos, hmax, Duration_mul_days lengthDays (by omega) hlen]

/-- C10, as stated, fails, with `now` = 2025-10-05T12:00:00Z and offset 0: the
afternoon programme of 2025-10-05 is in range for length 1 and not for length 106752,
whose duration wraps around in 64 bits; and the programme that starts on the evening
of 2025-10-04 and stops exactly at 2025-10-07T00:00:00Z is in range for length 1 and
not for length 2, whose window ends at that instant. -/
theorem widening_counterexample :
    (programmeIsInRange afternoonProgramme (calculateProgrammeTimeRange TEST_NOW 0 1).1
          (calculateProgrammeTimeRange TEST_NOW 0 1).2 = .ok true
        ∧ programmeIsInRange afternoonProgramme
            (calculateProgrammeTimeRange TEST_NOW 0 106752).1
            (calculateProgrammeTimeRange TEST_NOW 0 106752).2 = .ok false)
      ∧ (programmeIsInRange
            { Channel := "533", Start := Date 2025 10 4 22 0 0 0 UTC,
              Stop := some (Date 2025 10 7 0 0 0 0 UTC), Titles := ["Marathon"] }
            (calculateProgrammeTimeRange TEST_NOW 0 1).1
            (calculateProgrammeTimeRange TEST_NOW 0 1).2 = .ok true
        ∧ programmeIsInRange
            { Channel := "533", Start := Date 2025 10 4 22 0 0 0 UTC,
              Stop := some (Date 2025 10 7 0 0 0 0 UTC), Titles := ["Marathon"] }
            (calculateProgrammeTimeRange TEST_NOW 0 2).1
            (calculateProgrammeTimeRange TEST_NOW 0 2).2 = .ok false) :=
  ⟨⟨rfl, rfl⟩, rfl, rfl⟩

/-- C10, amended: for lengths `0 < l1 <= l2 <= 106751` and a programme with a stop
instant and `start < stop`, except the programme that starts before the earliest
instant and stops exactly at the end of the wider window, a programme in range for
the window of length `l1` is in range for the window of length `l2`, whatever `now`
and the offset are. -/
theorem widening_keeps (now : Time) (offsetDays l1 l2 : Int) (p : Programme) (stop : Time)
    (hpos : 0 < l1) (hle : l1 ≤ l2) (hmax : l2 ≤ 106751)
    (hstop : p.Stop = some stop) (hord : p.Start.unixNano < stop.unixNano)
    (hedge : ¬ (p.Start.unixNano < (calculateProgrammeTimeRange now offsetDays l2).1.unixNano
        ∧ stop.unixNano = (calculateProgrammeTimeRange now offsetDays l2).2.unixNano))
    (hin : programmeIsInRange p (calculateProgrammeTimeRange now offsetDays l1).1
        (calculateProgrammeTimeRange now offsetDays l1).2 = .ok true) :
    programmeIsInRange p (calculateProgrammeTimeRange now offsetDays l2).1
      (calculateProgrammeTimeRange now offsetDays l2).2 = .ok true := by
  have h1 := calculateProgrammeTimeRange_snd now offsetDays l1 hpos (by omega)
  have h2 := calculateProgrammeTimeRange_snd now offsetDays l2 (by omega) hmax
  have hfst := calculateProgrammeTimeRange_fst now offsetDays l1 l2
  rw [programmeIsInRange_decide p _ _ stop hstop] at hin
  rw [programmeIsInRange_decide p _ _ stop hstop]
  have hin1 := of_decide_eq_true (Except.ok.inj hin)
  rw [hfst] at hin1 h1
  congr 1
  rw [decide_eq_true_iff]
  omega

/-- Witness of C10, with `now` = 2025-10-05T12:00:00Z and offset 0: the programme that
starts at 13:00 on 2025-10-05 and stops at 2025-10-07T00:00:00Z, exactly the end of the
two-day window, is in range for one day and stays in range for two days. -/
theorem widening_keeps_witness :
    lateEndingProgramme.Stop = some (calculateProgrammeTimeRange TEST_NOW 0 2).2
      ∧ programmeIsInRange lateEndingProgramme (calculateProgrammeTimeRange TEST_NOW 0 1).1
          (calculateProgrammeTimeRange TEST_NOW 0 1).2 = .ok true
      ∧ programmeIsInRange lateEndingProgramme (calculateProgrammeTimeRange TEST_NOW 0 2).1
          (calculateProgrammeTimeRange TEST_NOW 0 2).2 = .ok true :=
  ⟨by decide, rfl,
   widening_keeps TEST_NOW 0 1 2 lateEndingProgramme (Date 2025 10 7 0 0 0 0 UTC)
    (by decide) (by decide) (by decide) rfl (by decide) (by decide) rfl⟩

/-! ## Facts about the merger -/

/-- The loop of `mergeXml` appends the channels and the programmes of all documents,
in list order, to those already in the result and changes nothing else. -/
theorem mergeXml_loop_eq (docs : List EPG) (result : EPG) :
    mergeXml.loop docs result
      = { result with
          Channels := result.Channels ++ (docs.map EPG.Channels).flatten
          Programmes := result.Programmes ++ (docs.map EPG.Programmes).flatten } := by
  induction docs generalizing result with
  | nil => simp [mergeXml.loop]
  | cons doc rest ih =>
    rw [mergeXml.loop, ih]
    simp [List.append_assoc]

/-- C3: `mergeXml` returns no error and a document whose channels are the
concatenation, in list order, of the channels of the inputs (so their number is the
sum of the input numbers), whose programmes are the concatenation, in list order, of
the programmes of the inputs, and whose date is `now`. -/
theorem mergeXml_concat (xmlDocuments : List EPG) (now : Time) :
    (mergeXml xmlDocuments now).2 = none
      ∧ (mergeXml xmlDocuments now).1.Channels = (xmlDocuments.map EPG.Channels).flatten
      ∧ (mergeXml xmlDocuments now).1.Channels.length
          = (xmlDocuments.map (fun doc => doc.Channels.length)).sum
      ∧ (mergeXml xmlDocuments now).1.Programmes = (xmlDocuments.map EPG.Programmes).flatten
      ∧ (mergeXml xmlDocuments now).1.Programmes.length
          = (xmlDocuments.map (fun doc => doc.Programmes.length)).sum
      ∧ (mergeXml xmlDocuments now).1.Date = some now := by
  unfold mergeXml
  simp only [mergeXml_loop_eq, List.nil_append]
  refine ⟨trivial, trivial, ?_, trivial, ?_, trivial⟩
  · simp [List.length_flatten, List.map_map, Function.comp_def]
  · simp [List.length_flatten, List.map_map, Function.comp_def]

/-! ## Facts about the per-URL pipeline -/

/-- When every programme has a stop instant, the filter loop appends to `filtered`
the programmes in range, in their order, each unchanged. -/
theorem getContentForUrl_loop_eq (earliest latest : Time) (programmes filtered : List Programme)
    (hstop : ∀ p ∈ programmes, ∃ stop, p.Stop = some stop) :
    getContentForUrl.loop earliest latest programmes filtered
      = .ok (filtered ++ programmes.filter (keptBy earliest latest)) := by
  induction programmes generalizing filtered with
  | nil => simp [getContentForUrl.loop]
  | cons p rest ih =>
    obtain ⟨stop, hp⟩ := hstop p (List.mem_cons_self p rest)
    have hrest : ∀ q ∈ rest, ∃ stop, q.Stop = some stop :=
      fun q hq => hstop q (List.mem_cons_of_mem p hq)
    have hres := programmeIsInRange_of_stop p earliest latest stop hp
    cases hb : ((p.Start.After earliest && p.Start.Before latest)
          || (stop.After earliest && stop.Before latest)
          || (p.Start.Before earliest && stop.After latest)) with
    | true =>
      rw [hb] at hres
      rw [getContentForUrl.loop, hres]
      simp only []
      rw [ih _ hrest]
      simp [List.filter, keptBy, hres]
    | false =>
      rw [hb] at hres
      rw [getContentForUrl.loop, hres]
      simp only []
      rw [ih _ hrest]
      simp [List.filter, keptBy, hres]

/-- When the download and the parse succeed and every parsed programme has a stop
instant, `getContentForUrl` returns the parsed document with its programmes filtered
by `programmeIsInRange` on the computed window, in their order; channels, date and
the other attributes are those of the parsed document. -/
theorem getContentForUrl_filters (env : Env) (url : String) (lengthInDays offsetInDays : Int)
    (now : Time) (body : Bytes) (epg : EPG)
    (hget : downloadXml env url = (body, none))
    (hparse : env.xmlUnmarshal body = (epg, none))
    (hstop : ∀ p ∈ epg.Programmes, ∃ stop, p.Stop = some stop) :
    getContentForUrl env url lengthInDays offsetInDays now
      = .ok ({ epg with
                Programmes := epg.Programmes.filter
                  (keptBy (calculateProgrammeTimeRange now offsetInDays lengthInDays).1
                    (calculateProgrammeTimeRange now offsetInDays lengthInDays).2) },
             none) := by
  unfold getContentForUrl
  rw [hget]
  simp only []
  rw [hparse]
  simp only []
  rw [getContentForUrl_loop_eq _ _ _ _ hstop]
  simp

/-- C9: for a document that is fetched and parsed without error and contains an
open-ended programme, `getContentForUrl` does not return a document: the filter
reads through the nil stop pointer and the call panics. -/
theorem getContentForUrl_openEnded_panics :
    downloadXml openEndedEnv "http://localhost/533.xml" = ([60, 116, 118, 62], none)
      ∧ (openEndedEnv.xmlUnmarshal [60, 116, 118, 62]).2 = none
      ∧ getContentForUrl openEndedEnv "http://localhost/533.xml" 0 0 TEST_NOW
          = .error .nilPointerDereference :=
  ⟨rfl, rfl, rfl⟩

/-! ## Facts about the orchestrator -/

/-- A response with a status other than 200 makes the per-URL step return an error. -/
theorem getContent_step_of_status (env : Env) (r : Request) (url : String) (resp : Response)
    (hget : env.httpGet url = .ok resp) (hstatus : resp.StatusCode ≠ 200) :
    getContent.step env r url
      = .ok (EPG.zero,
          some ⟨"HTTP request failed with status code " ++ toString resp.StatusCode⟩) := by
  unfold getContent.step getContentForUrl downloadXml
  rw [hget]
  simp [StatusOK, hstatus]

/-- The loop runs through a run of URLs whose step succeeds: it hands each of them to
`getContentForUrl` and goes on with the rest. -/
theorem getContent_loop_append (env : Env) (r : Request) (pre rest : List String)
    (xmlDocuments : List EPG) (visited : List String)
    (hpre : ∀ v ∈ pre, ∃ doc, getContent.step env r v = .ok (doc, none)) :
    ∃ docs, getContent.loop env r (pre ++ rest) xmlDocuments visited
      = getContent.loop env r rest docs (visited ++ pre) := by
  induction pre generalizing xmlDocuments visited with
  | nil => exact ⟨xmlDocuments, by simp⟩
  | cons v vs ih =>
    obtain ⟨doc, hdoc⟩ := hpre v (List.mem_cons_self v vs)
    have hvs : ∀ w ∈ vs, ∃ doc, getContent.step env r w = .ok (doc, none) :=
      fun w hw => hpre w (List.mem_cons_of_mem v hw)
    obtain ⟨docs, hdocs⟩ := ih (xmlDocuments ++ [doc]) (visited ++ [v]) hvs
    refine ⟨docs, ?_⟩
    unfold getContent.step at hdoc
    rw [List.cons_append, getContent.loop, hdoc]
    simp only []
    rw [hdocs]
    simp

/-- The loop stops at a URL whose step returns an error. -/
theorem getContent_loop_failed (env : Env) (r : Request) (u : String) (post : List String)
    (xmlDocuments : List EPG) (visited : List String) (d : EPG) (e : GoError)
    (hu : getContent.step env r u = .ok (d, some e)) :
    getContent.loop env r (u :: post) xmlDocuments visited = (.failed e, visited ++ [u]) := by
  unfold getContent.step at hu
  rw [getContent.loop, hu]

/-- When the loop ends with all documents, the step succeeded for every URL. -/
theorem getContent_loop_done (env : Env) (r : Request) (urls : List String)
    (xmlDocuments : List EPG) (visited : List String) (docs : List EPG) (seen : List String)
    (hdone : getContent.loop env r urls xmlDocuments visited = (.done docs, seen)) :
    ∀ v ∈ urls, ∃ doc, getContent.step env r v = .ok (doc, none) := by
  induction urls generalizing xmlDocuments visited with
  | nil => intro v hv; cases hv
  | cons u us ih =>
    rw [getContent.loop] at hdone
    cases hstep : getContentForUrl env u r.LengthInDays r.OffsetInDays (r.GetNowFunc ()) with
    | error panic => rw [hstep] at hdone; cases hdone
    | ok res =>
      obtain ⟨doc, err⟩ := res
      cases err with
      | some e => rw [hstep] at hdone; cases hdone
      | none =>
        rw [hstep] at hdone
        intro v hv
        rcases List.mem_cons.mp hv with rfl | hmem
        · exact ⟨doc, hstep⟩
        · exact ih _ _ hdone v hmem

/-- An outcome that is a returned value is not a panic. -/
theorem ne_error_of_ok {α : Type} {x : Except Panic α} {a : α} (h : x = .ok a)
    (panic : Panic) : x ≠ .error panic := by
  rw [h]
  intro hne
  cases hne

/-- A list with an element satisfying `P` splits at the first such element. -/
theorem exists_first {α : Type} (P : α → Prop) (l : List α) (h : ∃ v ∈ l, P v) :
    ∃ pre u post, l = pre ++ u :: post ∧ P u ∧ ∀ v ∈ pre, ¬ P v := by
  induction l with
  | nil => obtain ⟨v, hv, _⟩ := h; cases hv
  | cons a as ih =>
    by_cases ha : P a
    · exact ⟨[], a, as, rfl, ha, fun v hv => by cases hv⟩
    · obtain ⟨v, hv, hP⟩ := h
      have hmem : v ∈ as := by
        rcases List.mem_cons.mp hv with rfl | hmem
        · exact absurd hP ha
        · exact hmem
      obtain ⟨pre, u, post, hsplit, hu, hpre⟩ := ih ⟨v, hmem, hP⟩
      refine ⟨a :: pre, u, post, by rw [hsplit, List.cons_append], hu, ?_⟩
      intro w hw
      rcases List.mem_cons.mp hw with rfl | hw
      · exact ha
      · exact hpre w hw

/-- C4: with the per-URL step an outcome of document or error (no step panics), if
the step fails for some URL then the URL list splits at the first failing URL,
`getContent` returns the empty string with the error of that URL, and the URLs it
processed are those up to that one and none after it; `getContent` returns content
without error only when the step succeeds for every URL; and a response status
other than 200 makes the step fail. -/
theorem getContent_fail_fast (env : Env) (r : Request) :
    ((∃ v ∈ r.URLs, ∃ d e, getContent.step env r v = .ok (d, some e)) →
      (∀ v ∈ r.URLs, ∀ panic, getContent.step env r v ≠ .error panic) →
      ∃ pre u post d e, r.URLs = pre ++ u :: post
        ∧ (∀ v ∈ pre, ∃ doc, getContent.step env r v = .ok (doc, none))
        ∧ getContent.step env r u = .ok (d, some e)
        ∧ getContent env r = .ok ("", some e)
        ∧ getContentVisited env r = pre ++ [u])
      ∧ (∀ content, getContent env r = .ok (content, none) →
          ∀ v ∈ r.URLs, ∃ doc, getContent.step env r v = .ok (doc, none))
      ∧ (∀ url resp, env.httpGet url = .ok resp → resp.StatusCode ≠ 200 →
          ∃ e, getContent.step env r url = .ok (EPG.zero, some e)) := by
  refine ⟨?_, ?_, ?_⟩
  · intro hfail hnopanic
    obtain ⟨pre, u, post, hsplit, ⟨d, e, hu⟩, hpre⟩ :=
      exists_first (fun v => ∃ d e, getContent.step env r v = .ok (d, some e)) r.URLs hfail
    have hok : ∀ v ∈ pre, ∃ doc, getContent.step env r v = .ok (doc, none) := by
      intro v hv
      have hmem : v ∈ r.URLs := by rw [hsplit]; exact List.mem_append_left _ hv
      cases hstep : getContent.step env r v with
      | error panic => exact absurd hstep (hnopanic v hmem panic)
      | ok res =>
        obtain ⟨doc, err⟩ := res
        cases err with
        | some e2 => exact absurd ⟨doc, e2, hstep⟩ (hpre v hv)
        | none => exact ⟨doc, rfl⟩
    obtain ⟨docs, hdocs⟩ := getContent_loop_append env r pre (u :: post) [] [] hok
    have hloop : getContent.loop env r r.URLs [] [] = (.failed e, pre ++ [u]) := by
      rw [hsplit, hdocs, getContent_loop_failed env r u post docs _ d e hu]
      simp
    refine ⟨pre, u, post, d, e, hsplit, hok, hu, ?_, ?_⟩
    · unfold getContent getContentTraced
      rw [hloop]
    · unfold getContentVisited getContentTraced
      rw [hloop]
  · intro content hcontent
    unfold getContent getContentTraced at hcontent
    cases hloop : getContent.loop env r r.URLs [] [] with
    | mk exit seen =>
      rw [hloop] at hcontent
      cases exit with
      | done docs => exact getContent_loop_done env r r.URLs [] [] docs seen hloop
      | failed err => simp at hcontent
      | panicked panic => simp at hcontent
  · intro url resp hget hstatus
    exact ⟨_, getContent_step_of_status env r url resp hget hstatus⟩

/-- Witness of C4: of three URLs the second answers with status 500; `getContent`
returns the empty string with an error and has processed the first two URLs only. -/
theorem getContent_fail_fast_witness :
    (∃ pre u post d e, failingRequest.URLs = pre ++ u :: post
        ∧ (∀ v ∈ pre, ∃ doc, getContent.step failingEnv failingRequest v = .ok (doc, none))
        ∧ getContent.step failingEnv failingRequest u = .ok (d, some e)
        ∧ getContent failingEnv failingRequest = .ok ("", some e)
        ∧ getContentVisited failingEnv failingRequest = pre ++ [u])
      ∧ getContentVisited failingEnv failingRequest
          = ["http://localhost/a.xml", "http://localhost/b.xml"] :=
  ⟨(getContent_fail_fast failingEnv failingRequest).1
      ⟨"http://localhost/b.xml", by decide, EPG.zero, _,
        getContent_step_of_status failingEnv failingRequest "http://localhost/b.xml"
          { StatusCode := 500, Body := .ok [] } rfl (by decide)⟩
      (by
        intro v hv panic
        simp only [failingRequest, List.mem_cons, List.mem_singleton, List.not_mem_nil,
          or_false] at hv
        rcases hv with rfl | rfl | rfl
        · exact ne_error_of_ok rfl panic
        · exact ne_error_of_ok rfl panic
        · exact ne_error_of_ok rfl panic),
   by decide⟩

end TvGrab
